import Mathlib

/-!
Verification of the zone discovery and state-reconstruction engine of the
`alula-ha` Home Assistant integration (`custom_components/alula/coordinator.py`).

The coordinator is embedded shallowly: Python dicts become association lists
(first occurrence of a key is the binding, mirroring dict lookup), the client's
fallible `async` calls become `Except AlulaErr` results supplied by a `Client`
record, and exception propagation / `try ... except` blocks become explicit
`Except` plumbing.  Mutations of `self._zone_metadata` are threaded as an
explicit `Registry` value: an exception leaves behind exactly the mutations
performed before it was raised, as in Python.
-/

/-! ## Association-list dictionaries (Python `dict` model) -/

/-- Lookup: the first binding of the key, as a Python dict presents exactly
one binding per key. -/
def dGet? {κ α : Type} [BEq κ] (m : List (κ × α)) (k : κ) : Option α :=
  (m.find? (fun p => p.1 == k)).map (fun p => p.2)

/-- `k in m` for the dict model. -/
def dHas {κ α : Type} [BEq κ] (m : List (κ × α)) (k : κ) : Bool :=
  m.any (fun p => p.1 == k)

/-- `m[k] = v`: replace the binding in place if the key exists, else append. -/
def dSet {κ α : Type} [BEq κ] (m : List (κ × α)) (k : κ) (v : α) : List (κ × α) :=
  if dHas m k then m.map (fun p => if p.1 == k then (k, v) else p) else m ++ [(k, v)]

/-- `m.update(o)`: set every binding of `o` into `m`, in order. -/
def dUpd {κ α : Type} [BEq κ] (m o : List (κ × α)) : List (κ × α) :=
  o.foldl (fun acc p => dSet acc p.1 p.2) m

/-- `list(m.keys())`. -/
def dKeys {κ α : Type} (m : List (κ × α)) : List κ :=
  m.map (fun p => p.1)

/-! ## Data model (from `alulapy.models` and the event-log records) -/

/-- The fields of an event-log entry that the coordinator reads. -/
structure Event where
  user_zone : Option String
  event_qualifier : String
  user_zone_alias : Option String
  user_zone_type : Option String
deriving DecidableEq, Repr

/-- One registry entry: `{"zone_name": ..., "zone_type": ...}`. -/
structure ZoneInfo where
  zone_name : Option String
  zone_type : Option String
deriving DecidableEq, Repr

/-- The fields of a device record that the coordinator reads. -/
structure Device where
  id : String
  is_panel : Bool
  is_camera : Bool
deriving DecidableEq, Repr

/-- The `Zone` output model (the `status` sub-object is inlined: the source
always builds `ZoneStatus(name="open", is_active=...)`, and `raw={}`). -/
structure Zone where
  id : String
  device_id : String
  zone_index : Nat
  status_name : String
  is_active : Bool
  push_enabled : Bool
  zone_name : Option String
  device_type_hint : Option String
deriving DecidableEq, Repr

/-- Python truthiness-based `a or b` on optional strings: `None` and `""` are
falsy. -/
def pyOr (a b : Option String) : Option String :=
  match a with
  | some s => if s.isEmpty then b else some s
  | none => b

/-- `str.isdigit()`: the string is nonempty and every character is a decimal
digit (written over the character list so that it evaluates by reduction). -/
def pyIsDigit (s : String) : Bool :=
  !s.data.isEmpty && s.data.all Char.isDigit

/-- `int(s)` for a digit-only string: its base-10 value. -/
def pyParseNat (s : String) : Nat :=
  s.data.foldl (fun n c => n * 10 + (c.toNat - 48)) 0

/-- `event.user_zone` guard and parse: `not event.user_zone or not
event.user_zone.isdigit()` skips the event, otherwise `int(event.user_zone)`. -/
def eventZoneIdx (e : Event) : Option Nat :=
  match e.user_zone with
  | none => none
  | some s => if pyIsDigit s then some (pyParseNat s) else none

/-! ## Module constants (`coordinator.py` top level) -/

/-- `_SENSOR_ZONE_TYPES = {"Zone", "Fire", ""}`. -/
def SENSOR_ZONE_TYPES : List String := ["Zone", "Fire", ""]

/-- `_DEEP_SCAN_INTERVAL = 20`. -/
def DEEP_SCAN_INTERVAL : Nat := 20

/-- `_filter_sensor_zones`. -/
def filter_sensor_zones (raw_zones : List (Nat × ZoneInfo)) : List (Nat × ZoneInfo) :=
  raw_zones.filter (fun p => SENSOR_ZONE_TYPES.contains (p.2.zone_type.getD ""))

/-! ## Errors and the session client -/

/-- The `alulapy` exception taxonomy: `AlulaAuthError`, `AlulaApiError`,
`AlulaConnectionError`, each carrying its message. -/
inductive AlulaErr where
  | auth (msg : String)
  | api (msg : String)
  | conn (msg : String)
deriving DecidableEq, Repr

/-- Whether a result is an `AlulaAuthError`. -/
def isAuthErr {α : Type} : Except AlulaErr α → Bool
  | .error (.auth _) => true
  | _ => false

/-- `try: ... except (AlulaApiError, AlulaConnectionError): log` — api and
connection errors are swallowed; an auth error is not caught and propagates. -/
def caughtApiConn {α : Type} : Except AlulaErr α → Except AlulaErr Unit
  | .ok _ => .ok ()
  | .error (.auth m) => .error (.auth m)
  | .error (.api _) => .ok ()
  | .error (.conn _) => .ok ()

/-- One poll cycle's view of the session client: the result each call site
would receive this cycle.  The two `async_ensure_zone_subscriptions` call
sites are separate fields because the client is stateful and the two calls
may behave differently. -/
structure Client where
  devices : Except AlulaErr (List Device)
  discover_zones : String → Except AlulaErr (List (Nat × ZoneInfo))
  ensure_subs_init : String → List Nat → Except AlulaErr Nat
  renew_notifications : Except AlulaErr Unit
  event_log : String → Nat → Except AlulaErr (List Event)
  ensure_subs_poll : String → List Nat → Except AlulaErr Nat

/-! ## Coordinator state and registry -/

/-- `self._zone_metadata`: panel id → zone index → metadata. -/
abbrev Registry := List (String × List (Nat × ZoneInfo))

/-- `self._zone_metadata.setdefault(panel_id, {})`. -/
def setdefaultPanel (reg : Registry) (pid : String) : Registry :=
  if dHas reg pid then reg else reg ++ [(pid, [])]

/-- The metadata dict held for a panel (empty when the panel has none). -/
def getPanel (reg : Registry) (pid : String) : List (Nat × ZoneInfo) :=
  (dGet? reg pid).getD []

/-- The mutable fields of `AlulaDataUpdateCoordinator`. -/
structure CoordState where
  zones_initialized : Bool
  poll_count : Nat
  zone_metadata : Registry
deriving DecidableEq, Repr

/-! ## `_discover_new_zones` -/

/-- One iteration of the event loop of `_discover_new_zones`. -/
def discoverStep (metadata : List (Nat × ZoneInfo))
    (new_zones : List (Nat × ZoneInfo)) (e : Event) : List (Nat × ZoneInfo) :=
  match eventZoneIdx e with
  | none => new_zones
  | some zone_idx =>
    if zone_idx == 0 || dHas metadata zone_idx || dHas new_zones zone_idx then
      new_zones
    else
      let zone_type := e.user_zone_type.getD ""
      if !SENSOR_ZONE_TYPES.contains zone_type then new_zones
      else new_zones ++ [(zone_idx, ⟨e.user_zone_alias, some zone_type⟩)]

/-- The `new_zones` dict built by `_discover_new_zones`' event loop. -/
def discover_new_zones_list (metadata : List (Nat × ZoneInfo))
    (events : List Event) : List (Nat × ZoneInfo) :=
  events.foldl (discoverStep metadata) []

/-- `_discover_new_zones`: returns the newly discovered zones and the registry
after `metadata.update(new_zones)`. -/
def discover_new_zones (reg : Registry) (pid : String) (events : List Event) :
    List (Nat × ZoneInfo) × Registry :=
  let reg' := setdefaultPanel reg pid
  let metadata := getPanel reg' pid
  let new_zones := discover_new_zones_list metadata events
  if new_zones.isEmpty then (new_zones, reg')
  else (new_zones, dSet reg' pid (dUpd metadata new_zones))

/-! ## State reconstruction (`_async_poll_zone_states`, lines 199-243) -/

/-- A `Zone(...)` record as both construction sites build it. -/
def mkZone (panel_id : String) (zone_idx : Nat) (is_active : Bool)
    (zone_name device_type_hint : Option String) : Zone :=
  { id := panel_id ++ "_zone_" ++ toString zone_idx
    device_id := panel_id
    zone_index := zone_idx
    status_name := "open"
    is_active := is_active
    push_enabled := true
    zone_name := zone_name
    device_type_hint := device_type_hint }

/-- One iteration of the "build zone states from most recent event" loop. -/
def reconStep (panel_id : String) (metadata : List (Nat × ZoneInfo))
    (zone_states : List (Nat × Zone)) (e : Event) : List (Nat × Zone) :=
  match eventZoneIdx e with
  | none => zone_states
  | some zone_idx =>
    if zone_idx == 0 || dHas zone_states zone_idx then zone_states
    else if !dHas metadata zone_idx then zone_states
    else
      let is_open := e.event_qualifier == "1"
      let meta := (dGet? metadata zone_idx).getD ⟨none, none⟩
      let zone_name := pyOr meta.zone_name e.user_zone_alias
      let zone_type := pyOr meta.zone_type e.user_zone_type
      zone_states ++ [(zone_idx, mkZone panel_id zone_idx is_open zone_name zone_type)]

/-- One iteration of the "include all known zones, defaulting to closed" loop. -/
def fillStep (panel_id : String) (zone_states : List (Nat × Zone))
    (p : Nat × ZoneInfo) : List (Nat × Zone) :=
  if dHas zone_states p.1 then zone_states
  else zone_states ++ [(p.1, mkZone panel_id p.1 false p.2.zone_name p.2.zone_type)]

/-- The per-panel `zone_states` dict of `_async_poll_zone_states`: the event
walk (newest-first) followed by the default fill over the registry. -/
def build_zone_states (panel_id : String) (metadata : List (Nat × ZoneInfo))
    (events : List Event) : List (Nat × Zone) :=
  metadata.foldl (fillStep panel_id) (events.foldl (reconStep panel_id metadata) [])

/-! ## `_async_poll_zone_states` with client interaction -/

/-- The body of `_async_poll_zone_states`' per-panel loop: `setdefault`,
`async_get_event_log`, discovery, the guarded subscription call (api and
connection errors swallowed), then state reconstruction.  The returned
registry reflects all mutations performed before any propagated error. -/
def poll_zone_states_panel (c : Client) (event_limit : Nat) (reg : Registry)
    (pid : String) : Registry × Except AlulaErr (List (Nat × Zone)) :=
  let reg₀ := setdefaultPanel reg pid
  match c.event_log pid event_limit with
  | .error e => (reg₀, .error e)
  | .ok events =>
    let dz := discover_new_zones reg₀ pid events
    let subs : Except AlulaErr Unit :=
      if dz.1.isEmpty then .ok ()
      else caughtApiConn (c.ensure_subs_poll pid (dKeys dz.1))
    match subs with
    | .error e => (dz.2, .error e)
    | .ok _ => (dz.2, .ok (build_zone_states pid (getPanel dz.2 pid) events))

/-- `_async_poll_zone_states`: the per-panel loop over `panels`. -/
def poll_zone_states (c : Client) (event_limit : Nat) (reg : Registry) :
    List String → Registry × Except AlulaErr (List (String × List (Nat × Zone)))
  | [] => (reg, .ok [])
  | pid :: rest =>
    match poll_zone_states_panel c event_limit reg pid with
    | (reg', .error e) => (reg', .error e)
    | (reg', .ok zone_states) =>
      match poll_zone_states c event_limit reg' rest with
      | (reg'', .error e) => (reg'', .error e)
      | (reg'', .ok zone_map) => (reg'', .ok ((pid, zone_states) :: zone_map))

/-! ## `_async_initialize_zones` -/

/-- The body of `_async_initialize_zones`' per-panel loop.  Note:
`async_ensure_zone_subscriptions` is NOT inside a `try` block here — any
error it raises propagates; only `async_renew_notifications` is guarded. -/
def initialize_zones_panel (c : Client) (reg : Registry) (pid : String) :
    Registry × Except AlulaErr Unit :=
  match c.discover_zones pid with
  | .error e => (reg, .error e)
  | .ok raw_zones =>
    let zone_info := filter_sensor_zones raw_zones
    let reg' := dSet reg pid zone_info
    if zone_info.isEmpty then (reg', .ok ())
    else
      match c.ensure_subs_init pid (dKeys zone_info) with
      | .error e => (reg', .error e)
      | .ok _created =>
        match caughtApiConn c.renew_notifications with
        | .error e => (reg', .error e)
        | .ok _ => (reg', .ok ())

/-- `_async_initialize_zones`: the per-panel loop. -/
def initialize_zones (c : Client) (reg : Registry) :
    List String → Registry × Except AlulaErr Unit
  | [] => (reg, .ok ())
  | pid :: rest =>
    match initialize_zones_panel c reg pid with
    | (reg', .error e) => (reg', .error e)
    | (reg', .ok _) => initialize_zones c reg' rest

/-! ## `_async_update_data` -/

/-- The Home Assistant exception the coordinator raises, as (class name,
message).  Both `except` clauses of `_async_update_data` raise `UpdateFailed`;
they differ only in the message text. -/
structure HAErr where
  className : String
  message : String
deriving DecidableEq, Repr

/-- The two `except` clauses of `_async_update_data`. -/
def toUpdateFailed : AlulaErr → HAErr
  | .auth m => ⟨"UpdateFailed", "Authentication error: " ++ m⟩
  | .api m => ⟨"UpdateFailed", "API error: " ++ m⟩
  | .conn m => ⟨"UpdateFailed", "API error: " ++ m⟩

/-- The snapshot `_async_update_data` returns. -/
structure Snapshot where
  panels : List (String × Device)
  cameras : List (String × Device)
  zones : List (String × List (Nat × Zone))
deriving DecidableEq, Repr

/-- `{d.id: d for d in devices if flag(d)}`. -/
def deviceDict (devices : List Device) (flag : Device → Bool) : List (String × Device) :=
  (devices.filter flag).foldl (fun acc d => dSet acc d.id d) []

/-- The event-log window width for a cycle:
`500 if poll_count % _DEEP_SCAN_INTERVAL == 0 else 100`. -/
def event_limit_of (poll_count : Nat) : Nat :=
  if poll_count % DEEP_SCAN_INTERVAL == 0 then 500 else 100

/-- `_async_update_data`: one poll cycle.  Returns the coordinator state after
the cycle and either the snapshot or the raised `UpdateFailed`.  State
mutations made before a propagated error are kept, exactly as in Python. -/
def update_data (st : CoordState) (c : Client) : CoordState × Except HAErr Snapshot :=
  match c.devices with
  | .error e => (st, .error (toUpdateFailed e))
  | .ok devices =>
    let panels := deviceDict devices (fun d => d.is_panel)
    let cameras := deviceDict devices (fun d => d.is_camera)
    let pids := dKeys panels
    match (if st.zones_initialized then (st.zone_metadata, Except.ok ())
           else initialize_zones c st.zone_metadata pids) with
    | (reg₁, .error e) =>
      ({ st with zone_metadata := reg₁ }, .error (toUpdateFailed e))
    | (reg₁, .ok _) =>
      let st₁ : CoordState :=
        { st with zones_initialized := true, zone_metadata := reg₁ }
      match poll_zone_states c (event_limit_of st₁.poll_count) st₁.zone_metadata pids with
      | (reg₂, .error e) =>
        ({ st₁ with zone_metadata := reg₂ }, .error (toUpdateFailed e))
      | (reg₂, .ok zone_map) =>
        ({ st₁ with zone_metadata := reg₂, poll_count := st₁.poll_count + 1 },
         .ok { panels := panels, cameras := cameras, zones := zone_map })

/-- The coordinator state after a sequence of poll cycles, one client view
per cycle (polls are serialized by the host). -/
def run_cycles (st : CoordState) (cs : List Client) : CoordState :=
  cs.foldl (fun s c => (update_data s c).1) st

/-- Modelled from the spec: the scheduling host (`DataUpdateCoordinator`,
outside this repository, §6 of the design) keeps the previous snapshot when a
cycle raises `UpdateFailed`; only a successful cycle replaces it. -/
def coordinator_step (data : Option Snapshot) (st : CoordState) (c : Client) :
    Option Snapshot × CoordState :=
  match update_data st c with
  | (st', .ok snap) => (some snap, st')
  | (st', .error _) => (data, st')

/-! ## Dictionary lemmas -/

theorem dHas_nil {κ α : Type} [BEq κ] (k : κ) : dHas ([] : List (κ × α)) k = false := rfl

theorem dHas_cons {κ α : Type} [BEq κ] (p : κ × α) (m : List (κ × α)) (k : κ) :
    dHas (p :: m) k = (p.1 == k || dHas m k) := rfl

theorem dHas_append {κ α : Type} [BEq κ] (m l : List (κ × α)) (k : κ) :
    dHas (m ++ l) k = (dHas m k || dHas l k) := by
  induction m with
  | nil => simp [dHas_nil]
  | cons p m ih => simp [dHas_cons, ih, Bool.or_assoc]

theorem dHas_single {κ α : Type} [BEq κ] (k' k : κ) (v : α) :
    dHas [(k', v)] k = (k' == k) := by
  simp [dHas]

theorem dGet?_nil {κ α : Type} [BEq κ] (k : κ) : dGet? ([] : List (κ × α)) k = none := rfl

theorem dGet?_cons {κ α : Type} [BEq κ] (p : κ × α) (m : List (κ × α)) (k : κ) :
    dGet? (p :: m) k = if p.1 == k then some p.2 else dGet? m k := by
  unfold dGet?
  rw [List.find?_cons]
  cases h : (p.1 == k) <;> simp [h]

theorem dGet?_isSome {κ α : Type} [BEq κ] (m : List (κ × α)) (k : κ) :
    (dGet? m k).isSome = dHas m k := by
  induction m with
  | nil => rfl
  | cons p m ih =>
    rw [dGet?_cons, dHas_cons]
    cases h : (p.1 == k) <;> simp [h, ih]

theorem dGet?_eq_none_of_not_has {κ α : Type} [BEq κ] {m : List (κ × α)} {k : κ}
    (h : dHas m k = false) : dGet? m k = none := by
  have hs := dGet?_isSome m k
  rw [h] at hs
  cases hd : dGet? m k with
  | none => rfl
  | some v => rw [hd] at hs; simp at hs

theorem dGet?_append_left {κ α : Type} [BEq κ] {m : List (κ × α)} {k : κ}
    (l : List (κ × α)) (h : dHas m k = true) : dGet? (m ++ l) k = dGet? m k := by
  induction m with
  | nil => rw [dHas_nil] at h; cases h
  | cons p m ih =>
    rw [List.cons_append, dGet?_cons, dGet?_cons]
    cases hp : (p.1 == k) with
    | true => simp
    | false =>
      rw [dHas_cons, hp] at h
      simp only [Bool.false_or] at h
      simp [ih h]

theorem dGet?_append_right {κ α : Type} [BEq κ] {m : List (κ × α)} {k : κ}
    (l : List (κ × α)) (h : dHas m k = false) : dGet? (m ++ l) k = dGet? l k := by
  induction m with
  | nil => rfl
  | cons p m ih =>
    rw [dHas_cons] at h
    cases hp : (p.1 == k) with
    | true => rw [hp] at h; simp at h
    | false =>
      rw [hp] at h
      simp only [Bool.false_or] at h
      rw [List.cons_append, dGet?_cons, hp]
      simp [ih h]

theorem dGet?_append_single_ne {κ α : Type} [BEq κ] {k' k : κ} (m : List (κ × α))
    (v : α) (h : (k' == k) = false) : dGet? (m ++ [(k', v)]) k = dGet? m k := by
  cases hm : dHas m k with
  | true => exact dGet?_append_left _ hm
  | false =>
    rw [dGet?_append_right _ hm, dGet?_eq_none_of_not_has hm, dGet?_cons]
    simp [h, dGet?_nil]

theorem dHas_eq_true_iff_mem {κ α : Type} [BEq κ] [LawfulBEq κ]
    (m : List (κ × α)) (k : κ) : dHas m k = true ↔ k ∈ dKeys m := by
  simp [dHas, dKeys, List.any_eq_true, List.mem_map, beq_iff_eq]

theorem dHas_eq_false_iff_not_mem {κ α : Type} [BEq κ] [LawfulBEq κ]
    (m : List (κ × α)) (k : κ) : dHas m k = false ↔ k ∉ dKeys m := by
  rw [← dHas_eq_true_iff_mem]
  cases h : dHas m k <;> simp

theorem dHas_map_replace {κ α : Type} [BEq κ] [LawfulBEq κ]
    (m : List (κ × α)) (a k : κ) (v : α) :
    dHas (m.map (fun p => if p.1 == a then (a, v) else p)) k = dHas m k := by
  induction m with
  | nil => rfl
  | cons p m ih =>
    rw [List.map_cons, dHas_cons, dHas_cons, ih]
    cases hp : (p.1 == a) with
    | true =>
      have : p.1 = a := eq_of_beq hp
      simp [hp, this]
    | false => simp [hp]

theorem dHas_dSet {κ α : Type} [BEq κ] [LawfulBEq κ]
    (m : List (κ × α)) (a k : κ) (v : α) :
    dHas (dSet m a v) k = (dHas m k || a == k) := by
  unfold dSet
  cases hm : dHas m a with
  | false => simp [dHas_append, dHas_single]
  | true =>
    simp only [if_true]
    rw [dHas_map_replace]
    cases ha : (a == k) with
    | false => simp
    | true =>
      have : a = k := eq_of_beq ha
      rw [← this, hm]
      simp

theorem dGet?_map_replace_self {κ α : Type} [BEq κ] [LawfulBEq κ]
    {m : List (κ × α)} {a : κ} (v : α) (h : dHas m a = true) :
    dGet? (m.map (fun p => if p.1 == a then (a, v) else p)) a = some v := by
  induction m with
  | nil => rw [dHas_nil] at h; cases h
  | cons p m ih =>
    rw [List.map_cons, dGet?_cons]
    cases hp : (p.1 == a) with
    | true => simp [hp]
    | false =>
      rw [dHas_cons, hp] at h
      simp only [Bool.false_or] at h
      simp [hp, ih h]

theorem dGet?_map_replace_other {κ α : Type} [BEq κ] [LawfulBEq κ]
    {a k : κ} (m : List (κ × α)) (v : α) (h : (a == k) = false) :
    dGet? (m.map (fun p => if p.1 == a then (a, v) else p)) k = dGet? m k := by
  induction m with
  | nil => rfl
  | cons p m ih =>
    rw [List.map_cons, dGet?_cons, dGet?_cons]
    cases hp : (p.1 == a) with
    | true =>
      have hpa : p.1 = a := eq_of_beq hp
      have hpk : (p.1 == k) = false := by rw [hpa]; exact h
      simp [hp, h, hpk, ih]
    | false => simp [hp, ih]

theorem dGet?_dSet_self {κ α : Type} [BEq κ] [LawfulBEq κ]
    (m : List (κ × α)) (a : κ) (v : α) : dGet? (dSet m a v) a = some v := by
  unfold dSet
  cases hm : dHas m a with
  | true => simp only [if_true]; exact dGet?_map_replace_self v hm
  | false =>
    simp only [if_false, Bool.false_eq_true]
    rw [dGet?_append_right _ hm, dGet?_cons]
    simp

theorem dGet?_dSet_other {κ α : Type} [BEq κ] [LawfulBEq κ]
    {a k : κ} (m : List (κ × α)) (v : α) (h : (a == k) = false) :
    dGet? (dSet m a v) k = dGet? m k := by
  unfold dSet
  cases hm : dHas m a with
  | true => simp only [if_true]; exact dGet?_map_replace_other m v h
  | false =>
    simp only [if_false, Bool.false_eq_true]
    exact dGet?_append_single_ne m v h

theorem dHas_dUpd {κ α : Type} [BEq κ] [LawfulBEq κ]
    (m o : List (κ × α)) (k : κ) :
    dHas (dUpd m o) k = (dHas m k || dHas o k) := by
  induction o generalizing m with
  | nil => simp [dUpd, dHas_nil]
  | cons p o ih =>
    show dHas (dUpd (dSet m p.1 p.2) o) k = _
    rw [ih, dHas_dSet, dHas_cons, Bool.or_assoc]

/-! ## Registry lemmas -/

theorem getPanel_setdefault (reg : Registry) (pid pid' : String) :
    getPanel (setdefaultPanel reg pid) pid' = getPanel reg pid' := by
  unfold setdefaultPanel
  cases h : dHas reg pid with
  | true => simp
  | false =>
    simp only [Bool.false_eq_true, if_false]
    unfold getPanel
    cases h2 : dHas reg pid' with
    | true => rw [dGet?_append_left _ h2]
    | false =>
      rw [dGet?_append_right _ h2, dGet?_eq_none_of_not_has h2, dGet?_cons]
      cases h3 : (pid == pid') <;> simp [h3, dGet?_nil]

theorem dHas_setdefault (reg : Registry) (pid : String) :
    dHas (setdefaultPanel reg pid) pid = true := by
  unfold setdefaultPanel
  cases h : dHas reg pid with
  | true => simp [h]
  | false => simp [h, dHas_append, dHas_single]

theorem getPanel_dSet_self (reg : Registry) (pid : String)
    (m : List (Nat × ZoneInfo)) : getPanel (dSet reg pid m) pid = m := by
  unfold getPanel
  rw [dGet?_dSet_self]
  rfl

theorem getPanel_dSet_other (reg : Registry) {pid pid' : String}
    (m : List (Nat × ZoneInfo)) (h : (pid == pid') = false) :
    getPanel (dSet reg pid m) pid' = getPanel reg pid' := by
  unfold getPanel
  rw [dGet?_dSet_other reg m h]

/-! ## Generic fold lemmas: loops that only ever append fresh keys -/

/-- A loop body that either leaves the accumulated dict unchanged or appends
one binding whose key is not yet present.  All three dict-building loops of
the coordinator have this shape. -/
def AppendStep {β γ : Type} (step : List (Nat × β) → γ → List (Nat × β)) : Prop :=
  ∀ zs x, step zs x = zs ∨ ∃ k v, dHas zs k = false ∧ step zs x = zs ++ [(k, v)]

theorem foldl_frozen {β γ : Type} {step : List (Nat × β) → γ → List (Nat × β)}
    (hs : AppendStep step) (l : List γ) (zs : List (Nat × β)) (k : Nat)
    (h : dHas zs k = true) :
    dGet? (List.foldl step zs l) k = dGet? zs k ∧ dHas (List.foldl step zs l) k = true := by
  induction l generalizing zs with
  | nil => exact ⟨rfl, h⟩
  | cons x l ih =>
    rw [List.foldl_cons]
    rcases hs zs x with heq | ⟨k', v', hk', heq⟩
    · rw [heq]; exact ih zs h
    · rw [heq]
      have hne : (k' == k) = false := by
        cases hkk : (k' == k) with
        | false => rfl
        | true =>
          have he : k' = k := eq_of_beq hkk
          rw [he, h] at hk'
          cases hk'
      have h2 : dHas (zs ++ [(k', v')]) k = true := by
        rw [dHas_append, h]; simp
      obtain ⟨g1, g2⟩ := ih _ h2
      rw [g1, dGet?_append_single_ne zs v' hne]
      exact ⟨rfl, g2⟩

theorem foldl_dHas_mono {β γ : Type} {step : List (Nat × β) → γ → List (Nat × β)}
    (hs : AppendStep step) (l : List γ) (zs : List (Nat × β)) (k : Nat)
    (h : dHas zs k = true) : dHas (List.foldl step zs l) k = true :=
  (foldl_frozen hs l zs k h).2

theorem foldl_keysNodup {β γ : Type} {step : List (Nat × β) → γ → List (Nat × β)}
    (hs : AppendStep step) (l : List γ) (zs : List (Nat × β))
    (h : (dKeys zs).Nodup) : (dKeys (List.foldl step zs l)).Nodup := by
  induction l generalizing zs with
  | nil => exact h
  | cons x l ih =>
    rw [List.foldl_cons]
    rcases hs zs x with heq | ⟨k', v', hk', heq⟩
    · rw [heq]; exact ih zs h
    · rw [heq]
      apply ih
      have hkeys : dKeys (zs ++ [(k', v')]) = dKeys zs ++ [k'] := by
        simp [dKeys]
      rw [hkeys, List.nodup_append]
      refine ⟨h, List.nodup_singleton k', ?_⟩
      intro a ha hb
      rw [List.mem_singleton] at hb
      rw [hb] at ha
      exact (dHas_eq_false_iff_not_mem zs k').mp hk' ha


/-! ## The three loop bodies are append-fresh steps -/

theorem discoverStep_appendStep (m : List (Nat × ZoneInfo)) :
    AppendStep (discoverStep m) := by
  intro zs e
  cases he : eventZoneIdx e with
  | none => exact .inl (by simp [discoverStep, he])
  | some zi =>
    cases hg : (zi == 0 || dHas m zi || dHas zs zi) with
    | true => exact .inl (by simp [discoverStep, he, hg])
    | false =>
      have hzs : dHas zs zi = false := by
        cases hz : dHas zs zi with
        | false => rfl
        | true => rw [hz] at hg; simp at hg
      cases hs2 : SENSOR_ZONE_TYPES.contains (e.user_zone_type.getD "") with
      | false =>
        have hs2' : e.user_zone_type.getD "" ∉ SENSOR_ZONE_TYPES := by simpa using hs2
        exact .inl (by simp [discoverStep, he, hg, hs2'])
      | true =>
        have hs2' : e.user_zone_type.getD "" ∈ SENSOR_ZONE_TYPES := by simpa using hs2
        exact .inr ⟨zi, ⟨e.user_zone_alias, some (e.user_zone_type.getD "")⟩, hzs,
          by simp [discoverStep, he, hg, hs2']⟩

theorem reconStep_appendStep (pid : String) (m : List (Nat × ZoneInfo)) :
    AppendStep (reconStep pid m) := by
  intro zs e
  cases he : eventZoneIdx e with
  | none => exact .inl (by simp [reconStep, he])
  | some zi =>
    cases hg : (zi == 0 || dHas zs zi) with
    | true => exact .inl (by simp [reconStep, he, hg])
    | false =>
      have hzs : dHas zs zi = false := by
        cases hz : dHas zs zi with
        | false => rfl
        | true => rw [hz] at hg; simp at hg
      cases hm : dHas m zi with
      | false => exact .inl (by simp [reconStep, he, hg, hm])
      | true =>
        exact .inr ⟨zi,
          mkZone pid zi (e.event_qualifier == "1")
            (pyOr ((dGet? m zi).getD ⟨none, none⟩).zone_name e.user_zone_alias)
            (pyOr ((dGet? m zi).getD ⟨none, none⟩).zone_type e.user_zone_type),
          hzs, by simp [reconStep, he, hg, hm]⟩

theorem fillStep_appendStep (pid : String) : AppendStep (fillStep pid) := by
  intro zs p
  cases h : dHas zs p.1 with
  | true => exact .inl (by simp [fillStep, h])
  | false =>
    exact .inr ⟨p.1, mkZone pid p.1 false p.2.zone_name p.2.zone_type, h,
      by simp [fillStep, h]⟩

/-! ## Reconstruction lemmas -/

theorem reconStep_not_hit {pid : String} {m : List (Nat × ZoneInfo)}
    {zs : List (Nat × Zone)} {idx : Nat} {e : Event}
    (h : eventZoneIdx e ≠ some idx) :
    dGet? (reconStep pid m zs e) idx = dGet? zs idx ∧
    dHas (reconStep pid m zs e) idx = dHas zs idx := by
  cases he : eventZoneIdx e with
  | none => rw [show reconStep pid m zs e = zs by simp [reconStep, he]]; exact ⟨rfl, rfl⟩
  | some zi =>
    have hne : (zi == idx) = false := by
      cases hz : (zi == idx) with
      | false => rfl
      | true =>
        have : zi = idx := eq_of_beq hz
        rw [he, this] at h
        exact absurd rfl h
    cases hg : (zi == 0 || dHas zs zi) with
    | true => rw [show reconStep pid m zs e = zs by simp [reconStep, he, hg]]; exact ⟨rfl, rfl⟩
    | false =>
      cases hm : dHas m zi with
      | false =>
        rw [show reconStep pid m zs e = zs by simp [reconStep, he, hg, hm]]
        exact ⟨rfl, rfl⟩
      | true =>
        have hstep : reconStep pid m zs e = zs ++
            [(zi, mkZone pid zi (e.event_qualifier == "1")
              (pyOr ((dGet? m zi).getD ⟨none, none⟩).zone_name e.user_zone_alias)
              (pyOr ((dGet? m zi).getD ⟨none, none⟩).zone_type e.user_zone_type))] := by
          simp [reconStep, he, hg, hm]
        rw [hstep]
        constructor
        · exact dGet?_append_single_ne _ _ hne
        · rw [dHas_append, dHas_single, hne]
          simp

theorem recon_foldl_no_hit (pid : String) (m : List (Nat × ZoneInfo))
    (idx : Nat) (l : List Event) (zs : List (Nat × Zone))
    (h : ∀ e ∈ l, eventZoneIdx e ≠ some idx) :
    dGet? (List.foldl (reconStep pid m) zs l) idx = dGet? zs idx ∧
    dHas (List.foldl (reconStep pid m) zs l) idx = dHas zs idx := by
  induction l generalizing zs with
  | nil => exact ⟨rfl, rfl⟩
  | cons e l ih =>
    rw [List.foldl_cons]
    obtain ⟨g1, g2⟩ := @reconStep_not_hit pid m zs idx e (h e (by simp))
    obtain ⟨f1, f2⟩ := ih (reconStep pid m zs e) (fun e' h' => h e' (by simp [h']))
    exact ⟨f1.trans g1, f2.trans g2⟩

theorem recon_foldl_first_hit (pid : String) (m : List (Nat × ZoneInfo))
    (pre post : List Event) (e : Event) (idx : Nat)
    (h1 : eventZoneIdx e = some idx) (h2 : (idx == 0) = false)
    (h3 : dHas m idx = true) (h4 : ∀ e' ∈ pre, eventZoneIdx e' ≠ some idx) :
    dGet? (List.foldl (reconStep pid m) [] (pre ++ e :: post)) idx =
      some (mkZone pid idx (e.event_qualifier == "1")
        (pyOr ((dGet? m idx).getD ⟨none, none⟩).zone_name e.user_zone_alias)
        (pyOr ((dGet? m idx).getD ⟨none, none⟩).zone_type e.user_zone_type)) := by
  rw [List.foldl_append]
  have hno := recon_foldl_no_hit pid m idx pre [] h4
  have hh : dHas (List.foldl (reconStep pid m) [] pre) idx = false := by
    rw [hno.2]; rfl
  rw [List.foldl_cons]
  have hguard : (idx == 0 || dHas (List.foldl (reconStep pid m) [] pre) idx) = false := by
    rw [h2, hh]; rfl
  have hstep : reconStep pid m (List.foldl (reconStep pid m) [] pre) e =
      List.foldl (reconStep pid m) [] pre ++
        [(idx, mkZone pid idx (e.event_qualifier == "1")
          (pyOr ((dGet? m idx).getD ⟨none, none⟩).zone_name e.user_zone_alias)
          (pyOr ((dGet? m idx).getD ⟨none, none⟩).zone_type e.user_zone_type))] := by
    simp [reconStep, h1, h2, hh, h3]
  rw [hstep]
  have hhas : dHas (List.foldl (reconStep pid m) [] pre ++
      [(idx, mkZone pid idx (e.event_qualifier == "1")
        (pyOr ((dGet? m idx).getD ⟨none, none⟩).zone_name e.user_zone_alias)
        (pyOr ((dGet? m idx).getD ⟨none, none⟩).zone_type e.user_zone_type))]) idx = true := by
    rw [dHas_append, dHas_single]
    simp
  obtain ⟨g1, _⟩ := foldl_frozen (reconStep_appendStep pid m) post _ idx hhas
  rw [g1, dGet?_append_right _ hh, dGet?_cons]
  simp

theorem build_first_hit (pid : String) (m : List (Nat × ZoneInfo))
    (pre post : List Event) (e : Event) (idx : Nat)
    (h1 : eventZoneIdx e = some idx) (h2 : (idx == 0) = false)
    (h3 : dHas m idx = true) (h4 : ∀ e' ∈ pre, eventZoneIdx e' ≠ some idx) :
    dGet? (build_zone_states pid m (pre ++ e :: post)) idx =
      some (mkZone pid idx (e.event_qualifier == "1")
        (pyOr ((dGet? m idx).getD ⟨none, none⟩).zone_name e.user_zone_alias)
        (pyOr ((dGet? m idx).getD ⟨none, none⟩).zone_type e.user_zone_type)) := by
  unfold build_zone_states
  have hr := recon_foldl_first_hit pid m pre post e idx h1 h2 h3 h4
  have hhas : dHas (List.foldl (reconStep pid m) [] (pre ++ e :: post)) idx = true := by
    rw [← dGet?_isSome, hr]
    rfl
  obtain ⟨g1, _⟩ := foldl_frozen (fillStep_appendStep pid) m _ idx hhas
  rw [g1, hr]

theorem reconStep_dHas_sub {pid : String} {m : List (Nat × ZoneInfo)}
    {zs : List (Nat × Zone)} {e : Event} {idx : Nat}
    (h : dHas (reconStep pid m zs e) idx = true) :
    dHas zs idx = true ∨ dHas m idx = true := by
  cases he : eventZoneIdx e with
  | none =>
    rw [show reconStep pid m zs e = zs by simp [reconStep, he]] at h
    exact .inl h
  | some zi =>
    cases hg : (zi == 0 || dHas zs zi) with
    | true =>
      rw [show reconStep pid m zs e = zs by simp [reconStep, he, hg]] at h
      exact .inl h
    | false =>
      cases hm : dHas m zi with
      | false =>
        rw [show reconStep pid m zs e = zs by simp [reconStep, he, hg, hm]] at h
        exact .inl h
      | true =>
        have hstep : reconStep pid m zs e = zs ++
            [(zi, mkZone pid zi (e.event_qualifier == "1")
              (pyOr ((dGet? m zi).getD ⟨none, none⟩).zone_name e.user_zone_alias)
              (pyOr ((dGet? m zi).getD ⟨none, none⟩).zone_type e.user_zone_type))] := by
          simp [reconStep, he, hg, hm]
        rw [hstep, dHas_append, dHas_single] at h
        cases hzi : (zi == idx) with
        | true =>
          have : zi = idx := eq_of_beq hzi
          rw [this] at hm
          exact .inr hm
        | false =>
          rw [hzi] at h
          simp only [Bool.or_false] at h
          exact .inl h

theorem recon_foldl_dHas_sub (pid : String) (m : List (Nat × ZoneInfo))
    (l : List Event) (zs : List (Nat × Zone)) (idx : Nat)
    (h : dHas (List.foldl (reconStep pid m) zs l) idx = true) :
    dHas zs idx = true ∨ dHas m idx = true := by
  induction l generalizing zs with
  | nil => exact .inl h
  | cons e l ih =>
    rw [List.foldl_cons] at h
    rcases ih _ h with h1 | h1
    · exact reconStep_dHas_sub h1
    · exact .inr h1

theorem fill_foldl_dHas (pid : String) (l : List (Nat × ZoneInfo))
    (zs : List (Nat × Zone)) (idx : Nat) :
    dHas (List.foldl (fillStep pid) zs l) idx = (dHas zs idx || dHas l idx) := by
  induction l generalizing zs with
  | nil => simp [dHas_nil]
  | cons p l ih =>
    rw [List.foldl_cons, ih, dHas_cons]
    cases h : dHas zs p.1 with
    | true =>
      rw [show fillStep pid zs p = zs by simp [fillStep, h]]
      cases hpi : (p.1 == idx) with
      | false => simp
      | true =>
        have hp : p.1 = idx := eq_of_beq hpi
        rw [← hp, h]
        simp
    | false =>
      rw [show fillStep pid zs p =
            zs ++ [(p.1, mkZone pid p.1 false p.2.zone_name p.2.zone_type)] by
          simp [fillStep, h]]
      rw [dHas_append, dHas_single, Bool.or_assoc]

theorem fill_foldl_dGet? (pid : String) (l : List (Nat × ZoneInfo))
    (zs : List (Nat × Zone)) (idx : Nat) (h : dHas zs idx = false) :
    dGet? (List.foldl (fillStep pid) zs l) idx =
      (dGet? l idx).map (fun info => mkZone pid idx false info.zone_name info.zone_type) := by
  induction l generalizing zs with
  | nil => simp [dGet?_nil, dGet?_eq_none_of_not_has h]
  | cons p l ih =>
    rw [List.foldl_cons, dGet?_cons]
    cases hpi : (p.1 == idx) with
    | true =>
      have hp : p.1 = idx := eq_of_beq hpi
      have hz : dHas zs p.1 = false := by rw [hp]; exact h
      rw [show fillStep pid zs p =
            zs ++ [(p.1, mkZone pid p.1 false p.2.zone_name p.2.zone_type)] by
          simp [fillStep, hz]]
      have hhas : dHas (zs ++ [(p.1, mkZone pid p.1 false p.2.zone_name p.2.zone_type)])
          idx = true := by
        rw [dHas_append, dHas_single, hpi]
        simp
      obtain ⟨g1, _⟩ := foldl_frozen (fillStep_appendStep pid) l _ idx hhas
      rw [g1, dGet?_append_right _ h, dGet?_cons]
      simp [hpi, hp]
    | false =>
      have hstep2 : dGet? (fillStep pid zs p) idx = dGet? zs idx ∧
          dHas (fillStep pid zs p) idx = dHas zs idx := by
        cases hz : dHas zs p.1 with
        | true =>
          rw [show fillStep pid zs p = zs by simp [fillStep, hz]]
          exact ⟨rfl, rfl⟩
        | false =>
          rw [show fillStep pid zs p =
                zs ++ [(p.1, mkZone pid p.1 false p.2.zone_name p.2.zone_type)] by
              simp [fillStep, hz]]
          refine ⟨dGet?_append_single_ne _ _ hpi, ?_⟩
          rw [dHas_append, dHas_single, hpi]
          simp
      have hh2 : dHas (fillStep pid zs p) idx = false := by rw [hstep2.2, h]
      rw [ih _ hh2]
      simp

theorem build_dHas (pid : String) (m : List (Nat × ZoneInfo)) (events : List Event)
    (idx : Nat) : dHas (build_zone_states pid m events) idx = dHas m idx := by
  unfold build_zone_states
  rw [fill_foldl_dHas]
  cases hr : dHas (List.foldl (reconStep pid m) [] events) idx with
  | false => simp
  | true =>
    rcases recon_foldl_dHas_sub pid m events [] idx hr with h | h
    · simp [dHas_nil] at h
    · simp [h]

theorem build_keysNodup (pid : String) (m : List (Nat × ZoneInfo))
    (events : List Event) : (dKeys (build_zone_states pid m events)).Nodup := by
  unfold build_zone_states
  apply foldl_keysNodup (fillStep_appendStep pid)
  apply foldl_keysNodup (reconStep_appendStep pid m)
  simp [dKeys]

theorem build_empty (pid : String) (m : List (Nat × ZoneInfo)) (idx : Nat) :
    dGet? (build_zone_states pid m []) idx =
      (dGet? m idx).map (fun info => mkZone pid idx false info.zone_name info.zone_type) := by
  unfold build_zone_states
  rw [List.foldl_nil]
  exact fill_foldl_dGet? pid m [] idx rfl

/-! ## Discovery lemmas -/

theorem discoverStep_dHas_sub {m acc : List (Nat × ZoneInfo)} {e : Event} {idx : Nat}
    (h : dHas (discoverStep m acc e) idx = true) :
    dHas acc idx = true ∨
      (eventZoneIdx e = some idx ∧ (idx == 0) = false ∧ dHas m idx = false ∧
       SENSOR_ZONE_TYPES.contains (e.user_zone_type.getD "") = true) := by
  cases he : eventZoneIdx e with
  | none =>
    rw [show discoverStep m acc e = acc by simp [discoverStep, he]] at h
    exact .inl h
  | some zi =>
    cases hg : (zi == 0 || dHas m zi || dHas acc zi) with
    | true =>
      rw [show discoverStep m acc e = acc by simp [discoverStep, he, hg]] at h
      exact .inl h
    | false =>
      have h0 : (zi == 0) = false := by
        cases hz : (zi == 0) with
        | false => rfl
        | true => rw [hz] at hg; simp at hg
      have hm : dHas m zi = false := by
        cases hz : dHas m zi with
        | false => rfl
        | true => rw [hz] at hg; simp at hg
      have ha : dHas acc zi = false := by
        cases hz : dHas acc zi with
        | false => rfl
        | true => rw [hz] at hg; simp at hg
      cases hs2 : SENSOR_ZONE_TYPES.contains (e.user_zone_type.getD "") with
      | false =>
        have hs2' : e.user_zone_type.getD "" ∉ SENSOR_ZONE_TYPES := by simpa using hs2
        rw [show discoverStep m acc e = acc by simp [discoverStep, he, hg, hs2']] at h
        exact .inl h
      | true =>
        have hs2' : e.user_zone_type.getD "" ∈ SENSOR_ZONE_TYPES := by simpa using hs2
        have hstep : discoverStep m acc e =
            acc ++ [(zi, ⟨e.user_zone_alias, some (e.user_zone_type.getD "")⟩)] := by
          simp [discoverStep, he, hg, hs2']
        rw [hstep, dHas_append, dHas_single] at h
        cases hzi : (zi == idx) with
        | true =>
          have hz : zi = idx := eq_of_beq hzi
          rw [hz] at h0 hm
          exact .inr ⟨by rw [hz], h0, hm, rfl⟩
        | false =>
          rw [hzi] at h
          simp only [Bool.or_false] at h
          exact .inl h

theorem discover_foldl_dHas_sub (m : List (Nat × ZoneInfo)) (l : List Event)
    (acc : List (Nat × ZoneInfo)) (idx : Nat)
    (h : dHas (List.foldl (discoverStep m) acc l) idx = true) :
    dHas acc idx = true ∨
      ∃ e, e ∈ l ∧ eventZoneIdx e = some idx ∧ (idx == 0) = false ∧
        dHas m idx = false ∧
        SENSOR_ZONE_TYPES.contains (e.user_zone_type.getD "") = true := by
  induction l generalizing acc with
  | nil => exact .inl h
  | cons e l ih =>
    rw [List.foldl_cons] at h
    rcases ih _ h with h1 | ⟨e', he', rest⟩
    · rcases discoverStep_dHas_sub h1 with h2 | h2
      · exact .inl h2
      · exact .inr ⟨e, by simp, h2.1, h2.2.1, h2.2.2.1, h2.2.2.2⟩
    · exact .inr ⟨e', by simp [he'], rest⟩

theorem discover_foldl_complete (m : List (Nat × ZoneInfo)) (l : List Event)
    (acc : List (Nat × ZoneInfo)) (e : Event) (idx : Nat)
    (hmem : e ∈ l) (h1 : eventZoneIdx e = some idx) (h2 : (idx == 0) = false)
    (h3 : dHas m idx = false)
    (h4 : SENSOR_ZONE_TYPES.contains (e.user_zone_type.getD "") = true) :
    dHas (List.foldl (discoverStep m) acc l) idx = true := by
  induction l generalizing acc with
  | nil => cases hmem
  | cons x l ih =>
    rw [List.foldl_cons]
    rcases List.mem_cons.mp hmem with hx | hmem'
    · rw [← hx]
      cases hacc : dHas acc idx with
      | true =>
        apply foldl_dHas_mono (discoverStep_appendStep m)
        rcases discoverStep_appendStep m acc e with heq | ⟨k, v, hk, heq⟩
        · rw [heq]; exact hacc
        · rw [heq, dHas_append, hacc]; simp
      | false =>
        apply foldl_dHas_mono (discoverStep_appendStep m)
        have hs2' : e.user_zone_type.getD "" ∈ SENSOR_ZONE_TYPES := by simpa using h4
        have hstep : discoverStep m acc e =
            acc ++ [(idx, ⟨e.user_zone_alias, some (e.user_zone_type.getD "")⟩)] := by
          simp [discoverStep, h1, h2, h3, hacc, hs2']
        rw [hstep, dHas_append, dHas_single]
        simp
    · exact ih _ hmem'

theorem discover_foldl_all_known (m : List (Nat × ZoneInfo)) (l : List Event)
    (h : ∀ e ∈ l, ∀ idx, eventZoneIdx e = some idx → (idx == 0) = false →
      SENSOR_ZONE_TYPES.contains (e.user_zone_type.getD "") = true →
      dHas m idx = true) :
    List.foldl (discoverStep m) [] l = [] := by
  induction l with
  | nil => rfl
  | cons e l ih =>
    rw [List.foldl_cons]
    have hstep : discoverStep m [] e = [] := by
      cases he : eventZoneIdx e with
      | none => simp [discoverStep, he]
      | some zi =>
        cases h0 : (zi == 0) with
        | true => simp [discoverStep, he, h0]
        | false =>
          cases hs2 : SENSOR_ZONE_TYPES.contains (e.user_zone_type.getD "") with
          | false =>
            have hs2' : e.user_zone_type.getD "" ∉ SENSOR_ZONE_TYPES := by simpa using hs2
            simp [discoverStep, he, h0, hs2', dHas_nil]
          | true =>
            have hm := h e (by simp) zi he h0 hs2
            simp [discoverStep, he, h0, hm]
    rw [hstep]
    exact ih (fun e' he' => h e' (by simp [he']))

/-! ## Lemmas about `_discover_new_zones` at the registry level -/

theorem dUpd_nil {κ α : Type} [BEq κ] (m : List (κ × α)) : dUpd m [] = m := rfl

theorem caughtApiConn_ok {α : Type} (r : Except AlulaErr α)
    (h : isAuthErr r = false) : caughtApiConn r = .ok () := by
  cases r with
  | ok v => rfl
  | error e =>
    cases e with
    | auth m => simp [isAuthErr] at h
    | api m => rfl
    | conn m => rfl

theorem discover_fst (reg : Registry) (pid : String) (events : List Event) :
    (discover_new_zones reg pid events).1 =
      discover_new_zones_list (getPanel reg pid) events := by
  simp only [discover_new_zones]
  rw [getPanel_setdefault]
  split <;> rfl

theorem discover_getPanel_self (reg : Registry) (pid : String) (events : List Event) :
    getPanel (discover_new_zones reg pid events).2 pid =
      dUpd (getPanel reg pid) (discover_new_zones_list (getPanel reg pid) events) := by
  simp only [discover_new_zones]
  rw [getPanel_setdefault]
  cases hni : (discover_new_zones_list (getPanel reg pid) events).isEmpty with
  | true =>
    have : discover_new_zones_list (getPanel reg pid) events = [] :=
      List.isEmpty_iff.mp hni
    rw [this]
    simp [getPanel_setdefault, dUpd_nil]
  | false => simp [hni, getPanel_dSet_self, getPanel_setdefault]

theorem discover_getPanel_other (reg : Registry) {pid pid' : String}
    (events : List Event) (hpp : (pid == pid') = false) :
    getPanel (discover_new_zones reg pid events).2 pid' = getPanel reg pid' := by
  simp only [discover_new_zones]
  rw [getPanel_setdefault]
  cases hni : (discover_new_zones_list (getPanel reg pid) events).isEmpty with
  | true => simp [getPanel_setdefault]
  | false =>
    simp only [hni, Bool.false_eq_true, if_false]
    rw [getPanel_dSet_other _ _ hpp, getPanel_setdefault]

theorem discover_dHas_reg (reg : Registry) (pid : String) (events : List Event) :
    dHas (discover_new_zones reg pid events).2 pid = true := by
  simp only [discover_new_zones]
  cases hni : (discover_new_zones_list (getPanel (setdefaultPanel reg pid) pid) events).isEmpty with
  | true => simp [dHas_setdefault]
  | false =>
    simp only [hni, Bool.false_eq_true, if_false]
    rw [dHas_dSet]
    simp

theorem discover_mono (reg : Registry) (pid pid' : String) (events : List Event)
    (idx : Nat) (h : dHas (getPanel reg pid') idx = true) :
    dHas (getPanel (discover_new_zones reg pid events).2 pid') idx = true := by
  cases hpp : (pid == pid') with
  | true =>
    have hp : pid = pid' := eq_of_beq hpp
    rw [← hp] at h ⊢
    rw [discover_getPanel_self, dHas_dUpd, h]
    simp
  | false =>
    rw [discover_getPanel_other reg events hpp]
    exact h

/-! ## Poll-level lemmas -/

theorem poll_panel_mono (c : Client) (lim : Nat) (reg : Registry)
    (pid pid' : String) (idx : Nat) (h : dHas (getPanel reg pid') idx = true) :
    dHas (getPanel (poll_zone_states_panel c lim reg pid).1 pid') idx = true := by
  cases hev : c.event_log pid lim with
  | error e =>
    simp only [poll_zone_states_panel, hev]
    rw [getPanel_setdefault]
    exact h
  | ok events =>
    simp only [poll_zone_states_panel, hev]
    have hd : dHas (getPanel (discover_new_zones (setdefaultPanel reg pid) pid events).2 pid') idx = true := by
      apply discover_mono
      rw [getPanel_setdefault]
      exact h
    split <;> simpa using hd

theorem poll_panel_ok (c : Client) (lim : Nat) (reg : Registry) (pid : String)
    (events : List Event) (hev : c.event_log pid lim = .ok events)
    (hsub : isAuthErr (c.ensure_subs_poll pid
      (dKeys (discover_new_zones_list (getPanel reg pid) events))) = false) :
    poll_zone_states_panel c lim reg pid =
      ((discover_new_zones (setdefaultPanel reg pid) pid events).2,
       .ok (build_zone_states pid
         (getPanel (discover_new_zones (setdefaultPanel reg pid) pid events).2 pid)
         events)) := by
  simp only [poll_zone_states_panel, hev]
  have hkeys : (discover_new_zones (setdefaultPanel reg pid) pid events).1 =
      discover_new_zones_list (getPanel reg pid) events := by
    rw [discover_fst, getPanel_setdefault]
  rw [hkeys]
  cases hni : (discover_new_zones_list (getPanel reg pid) events).isEmpty with
  | true => simp [hni]
  | false => simp [hni, caughtApiConn_ok _ hsub]

theorem poll_panel_err (c : Client) (lim : Nat) (reg : Registry) (pid : String)
    (err : AlulaErr) (hev : c.event_log pid lim = .error err) :
    poll_zone_states_panel c lim reg pid = (setdefaultPanel reg pid, .error err) := by
  simp only [poll_zone_states_panel, hev]

theorem poll_mono (c : Client) (lim : Nat) (pids : List String) (reg : Registry)
    (pid' : String) (idx : Nat) (h : dHas (getPanel reg pid') idx = true) :
    dHas (getPanel (poll_zone_states c lim reg pids).1 pid') idx = true := by
  induction pids generalizing reg with
  | nil => exact h
  | cons pid rest ih =>
    simp only [poll_zone_states]
    rcases hp : poll_zone_states_panel c lim reg pid with ⟨reg₁, res⟩
    have h1 : dHas (getPanel reg₁ pid') idx = true := by
      have := poll_panel_mono c lim reg pid pid' idx h
      rw [hp] at this
      exact this
    cases res with
    | error e => simpa using h1
    | ok zs =>
      rcases hr : poll_zone_states c lim reg₁ rest with ⟨reg₂, res₂⟩
      have h2 : dHas (getPanel reg₂ pid') idx = true := by
        have := ih reg₁ h1
        rw [hr] at this
        exact this
      cases res₂ with
      | error e => simpa [hr] using h2
      | ok zm => simpa [hr] using h2

/-! ## `_async_update_data` lemmas -/

theorem update_data_steady (st : CoordState) (c : Client)
    (h : st.zones_initialized = true) :
    (update_data st c).1.zones_initialized = true ∧
    ∀ pid idx, dHas (getPanel st.zone_metadata pid) idx = true →
      dHas (getPanel (update_data st c).1.zone_metadata pid) idx = true := by
  cases hdev : c.devices with
  | error e =>
    simp only [update_data, hdev]
    exact ⟨h, fun pid idx hh => hh⟩
  | ok devices =>
    simp only [update_data, hdev, h, if_true]
    rcases hpoll : poll_zone_states c (event_limit_of st.poll_count) st.zone_metadata
        (dKeys (deviceDict devices (fun d => d.is_panel))) with ⟨reg₂, res⟩
    have hm : ∀ pid idx, dHas (getPanel st.zone_metadata pid) idx = true →
        dHas (getPanel reg₂ pid) idx = true := by
      intro pid idx hh
      have hmm := poll_mono c (event_limit_of st.poll_count)
        (dKeys (deviceDict devices (fun d => d.is_panel))) st.zone_metadata pid idx hh
      rw [hpoll] at hmm
      exact hmm
    cases res with
    | error e => exact ⟨rfl, hm⟩
    | ok zm => exact ⟨rfl, hm⟩

theorem run_cycles_steady_mono (st : CoordState) (cs : List Client) (pid : String)
    (idx : Nat) (h1 : st.zones_initialized = true)
    (h2 : dHas (getPanel st.zone_metadata pid) idx = true) :
    (run_cycles st cs).zones_initialized = true ∧
    dHas (getPanel (run_cycles st cs).zone_metadata pid) idx = true := by
  induction cs generalizing st with
  | nil => exact ⟨h1, h2⟩
  | cons c cs ih =>
    have hstep := update_data_steady st c h1
    have hrec := ih (update_data st c).1 hstep.1 (hstep.2 pid idx h2)
    simpa [run_cycles] using hrec

theorem setdefaultPanel_of_has (reg : Registry) (pid : String)
    (h : dHas reg pid = true) : setdefaultPanel reg pid = reg := by
  unfold setdefaultPanel
  rw [h]
  simp

theorem initialize_panel_subfail (c : Client) (reg : Registry) (pid : String)
    (raw : List (Nat × ZoneInfo)) (err : AlulaErr)
    (h1 : c.discover_zones pid = .ok raw)
    (h2 : filter_sensor_zones raw ≠ [])
    (h3 : c.ensure_subs_init pid (dKeys (filter_sensor_zones raw)) = .error err) :
    initialize_zones_panel c reg pid =
      (dSet reg pid (filter_sensor_zones raw), .error err) := by
  have hni : (filter_sensor_zones raw).isEmpty = false := by
    cases hi : (filter_sensor_zones raw).isEmpty with
    | false => rfl
    | true => exact absurd (List.isEmpty_iff.mp hi) h2
  simp only [initialize_zones_panel, h1, hni, h3]
  simp

theorem update_data_auth (st : CoordState) (c : Client) (msg : String)
    (h : c.devices = .error (.auth msg)) :
    update_data st c = (st, .error ⟨"UpdateFailed", "Authentication error: " ++ msg⟩) := by
  simp only [update_data, h, toUpdateFailed]

/-! ## Concrete fixtures for witnesses and counterexamples -/

/-- A panel device. -/
def panelA : Device := ⟨"A", true, false⟩

/-- A second panel device. -/
def panelB : Device := ⟨"B", true, false⟩

/-- A registry dict holding sensor zone 3. -/
def exReg3 : List (Nat × ZoneInfo) := [(3, ⟨some "Door", some "Zone"⟩)]

/-- A zone-3 sensor event with the given qualifier. -/
def exEv3 (q : String) : Event := ⟨some "3", q, some "Door", some "Zone"⟩

/-- A "User"-typed event whose numeric field is 3. -/
def exEv3User (q : String) : Event := ⟨some "3", q, some "Joshua", some "User"⟩

/-- A zone-5 sensor event (used for discovery). -/
def exEv5 : Event := ⟨some "5", "1", some "Window", some "Zone"⟩

/-- The initial coordinator state (`__init__`). -/
def st0 : CoordState := ⟨false, 0, []⟩

/-- A steady-state coordinator holding zone 3 for panel A. -/
def stW1 : CoordState := ⟨true, 0, [("A", exReg3)]⟩

/-- First-cycle client: the deep scan finds zones 1 and 2 for panel A, but
subscription creation fails with an api error. -/
def clientInitSubFail : Client :=
  ⟨.ok [panelA],
   fun _ => .ok [(1, ⟨some "Front", some "Zone"⟩), (2, ⟨some "Back", some "Zone"⟩)],
   fun _ _ => .error (.api "sub fail"),
   .ok (),
   fun _ _ => .ok [],
   fun _ _ => .ok 0⟩

/-- Second-cycle client: the re-run deep scan now sees only zone 1. -/
def clientInitOk1 : Client :=
  ⟨.ok [panelA],
   fun _ => .ok [(1, ⟨some "Front", some "Zone"⟩)],
   fun _ _ => .ok 0,
   .ok (),
   fun _ _ => .ok [],
   fun _ _ => .ok 0⟩

/-- A quiet steady-state client: no events, all calls succeed. -/
def clientQuiet : Client :=
  ⟨.ok [panelA], fun _ => .ok [], fun _ _ => .ok 0, .ok (),
   fun _ _ => .ok [], fun _ _ => .ok 0⟩

/-- A client whose device-list fetch raises `AlulaAuthError("x")`. -/
def clientAuthX : Client :=
  ⟨.error (.auth "x"), fun _ => .ok [], fun _ _ => .ok 0, .ok (),
   fun _ _ => .ok [], fun _ _ => .ok 0⟩

/-- A client whose device-list fetch raises `AlulaApiError("x")`. -/
def clientApiX : Client :=
  ⟨.error (.api "x"), fun _ => .ok [], fun _ _ => .ok 0, .ok (),
   fun _ _ => .ok [], fun _ _ => .ok 0⟩

/-- A client for the subscription-failure scenarios: both subscription call
sites fail with api errors, while the event log and deep scan succeed. -/
def clientC7 : Client :=
  ⟨.ok [panelA],
   fun _ => .ok [(1, ⟨some "Front", some "Zone"⟩)],
   fun _ _ => .error (.api "s2"),
   .ok (),
   fun _ _ => .ok [exEv5],
   fun _ _ => .error (.api "s1")⟩

/-- A two-panel client: panel A's event log is fine, panel B's fetch fails. -/
def clientC9 : Client :=
  ⟨.ok [panelA, panelB],
   fun _ => .ok [],
   fun _ _ => .ok 0,
   .ok (),
   fun pid _ => if pid == "B" then .error (.api "down") else .ok [exEv5],
   fun _ _ => .ok 1⟩

/-- The exception class of a cycle outcome (`None` for a successful cycle). -/
def raisedClass : Except HAErr Snapshot → Option String
  | .error e => some e.className
  | .ok _ => none

/-! ## Claim theorems -/

/-- C1 (counterexample).  The claim that registry keys are never removed in
any later cycle — "including the re-run of the initialization deep scan
after a failed first cycle" — is false on the code: `_async_initialize_zones`
ASSIGNS `self._zone_metadata[panel_id] = zone_info` instead of merging.
Cycle 1: the deep scan registers zones 1 and 2 for panel A, then the
(uncaught) subscription call fails, so `_zones_initialized` stays False.
Cycle 2: the re-run deep scan sees only zone 1 and the assignment drops
zone 2 from the registry. -/
theorem C1_counterexample :
    dHas (getPanel (update_data st0 clientInitSubFail).1.zone_metadata "A") 2 = true ∧
    (update_data st0 clientInitSubFail).1.zones_initialized = false ∧
    dHas (getPanel
      (update_data (update_data st0 clientInitSubFail).1 clientInitOk1).1.zone_metadata
      "A") 2 = false := by
  refine ⟨?_, ?_, ?_⟩ <;> rfl

/-- C1 (amended).  Registry monotonicity holds for every cycle that starts
with `zones_initialized = true` (the initialization pass will not re-run):
once a zone index is a key of the registry for a panel, it remains a key
after any sequence of further poll cycles, regardless of their event-log
content.  Only the re-run of the initialization deep scan after a failed
first cycle can replace a panel's registry and drop keys. -/
theorem C1_registry_monotone_steady (st : CoordState) (cs : List Client)
    (pid : String) (idx : Nat) (h1 : st.zones_initialized = true)
    (h2 : dHas (getPanel st.zone_metadata pid) idx = true) :
    dHas (getPanel (run_cycles st cs).zone_metadata pid) idx = true :=
  (run_cycles_steady_mono st cs pid idx h1 h2).2

/-- C1 (witness): a steady-state coordinator holding zone 3 for panel A still
holds it after a further quiet cycle. -/
theorem C1_witness :
    dHas (getPanel (run_cycles stW1 [clientQuiet]).zone_metadata "A") 3 = true :=
  C1_registry_monotone_steady stW1 [clientQuiet] "A" 3 rfl (by decide)

/-- C2.  Reconstruction completeness: for every panel, registry view `m` and
event batch, the zone map built by the reconstruction step has an entry for
a zone index exactly when the index is a key of `m`, its keys contain no
duplicates (exactly one entry per registered index), and with an empty event
batch every registered zone appears with the default closed state
(`is_active = false`) and the registry's stored name/type metadata. -/
theorem C2_reconstruction_complete (pid : String) (m : List (Nat × ZoneInfo))
    (events : List Event) (idx : Nat) :
    dHas (build_zone_states pid m events) idx = dHas m idx ∧
    (dKeys (build_zone_states pid m events)).Nodup ∧
    dGet? (build_zone_states pid m []) idx =
      (dGet? m idx).map (fun info => mkZone pid idx false info.zone_name info.zone_type) :=
  ⟨build_dHas pid m events idx, build_keysNodup pid m events, build_empty pid m idx⟩

/-- C3.  Newest-wins: if `e` is the first event of the (newest-first) batch
whose parsed zone field equals a registered nonzero index `idx`, then the
derived entry for `idx` is determined entirely by `e` — the universally
quantified `post` (all older events, including further events for `idx`)
does not appear in the result.  For the concrete batch
`[{idx:3, qual:restore("3")}, {idx:3, qual:new("1")}]` zone 3 comes out
closed. -/
theorem C3_newest_wins (pid : String) (m : List (Nat × ZoneInfo))
    (pre post : List Event) (e : Event) (idx : Nat)
    (h1 : eventZoneIdx e = some idx) (h2 : (idx == 0) = false)
    (h3 : dHas m idx = true) (h4 : ∀ e' ∈ pre, eventZoneIdx e' ≠ some idx) :
    dGet? (build_zone_states pid m (pre ++ e :: post)) idx =
      some (mkZone pid idx (e.event_qualifier == "1")
        (pyOr ((dGet? m idx).getD ⟨none, none⟩).zone_name e.user_zone_alias)
        (pyOr ((dGet? m idx).getD ⟨none, none⟩).zone_type e.user_zone_type)) ∧
    (dGet? (build_zone_states "p" exReg3 [exEv3 "3", exEv3 "1"]) 3).map Zone.is_active
      = some false :=
  ⟨build_first_hit pid m pre post e idx h1 h2 h3 h4, by rfl⟩

/-- C3 (witness): the theorem applied to the concrete batch
`[{idx:3, qual:"3"}, {idx:3, qual:"1"}]` over a registry holding zone 3. -/
theorem C3_witness :
    dGet? (build_zone_states "p" exReg3 ([] ++ exEv3 "3" :: [exEv3 "1"])) 3 =
      some (mkZone "p" 3 ((exEv3 "3").event_qualifier == "1")
        (pyOr ((dGet? exReg3 3).getD ⟨none, none⟩).zone_name (exEv3 "3").user_zone_alias)
        (pyOr ((dGet? exReg3 3).getD ⟨none, none⟩).zone_type (exEv3 "3").user_zone_type)) ∧
    (dGet? (build_zone_states "p" exReg3 [exEv3 "3", exEv3 "1"]) 3).map Zone.is_active
      = some false :=
  C3_newest_wins "p" exReg3 [] [exEv3 "1"] (exEv3 "3") 3 rfl rfl (by decide) (by simp)

/-- C4 (counterexample).  The claim says an event whose qualifier is neither
the "new/opened" nor the "restored/closed" value is skipped and does not
block an older indicative event; then the batch
`[{idx:3, qual:"6"}, {idx:3, qual:"1"}]` would leave zone 3 open.  The code
computes `is_open = event_qualifier == "1"`, so the qualifier-"6" event is
recorded as closed and blocks the older open event: zone 3 comes out
closed, refuting the claim. -/
theorem C4_counterexample :
    (dGet? (build_zone_states "p" exReg3 [exEv3 "6", exEv3 "1"]) 3).map Zone.is_active
      ≠ some true ∧
    (dGet? (build_zone_states "p" exReg3 [exEv3 "6", exEv3 "1"]) 3).map Zone.is_active
      = some false := by
  refine ⟨?_, ?_⟩ <;> decide

/-- C4 (amended).  Qualifier mapping as the code implements it: the first
event of the batch matching a registered nonzero zone index derives state
open exactly when its qualifier equals "1"; EVERY other qualifier value
(including "restore" and any unrecognized value) derives closed, is
recorded, and blocks older events for that index. -/
theorem C4_qualifier_mapping (pid : String) (m : List (Nat × ZoneInfo))
    (pre post : List Event) (e : Event) (idx : Nat)
    (h1 : eventZoneIdx e = some idx) (h2 : (idx == 0) = false)
    (h3 : dHas m idx = true) (h4 : ∀ e' ∈ pre, eventZoneIdx e' ≠ some idx) :
    (dGet? (build_zone_states pid m (pre ++ e :: post)) idx).map Zone.is_active =
      some (e.event_qualifier == "1") := by
  rw [build_first_hit pid m pre post e idx h1 h2 h3 h4]
  rfl

/-- C4 (witness): applied to a qualifier-"6" event for registered zone 3,
followed by an older qualifier-"1" event; the derived state is closed. -/
theorem C4_witness :
    (dGet? (build_zone_states "p" exReg3 ([] ++ exEv3 "6" :: [exEv3 "1"])) 3).map
      Zone.is_active = some ((exEv3 "6").event_qualifier == "1") :=
  C4_qualifier_mapping "p" exReg3 [] [exEv3 "1"] (exEv3 "6") 3 rfl rfl (by decide) (by simp)

/-- C5.  Classification excludes non-sensor labels.  (a) The initial
deep-scan filter keeps only entries whose zone-type label (blank-defaulted)
is in the accepted sensor set `{"Zone", "Fire", ""}` — a `"User"` label never
survives.  (b) Per-poll discovery inserts an index into `new_zones` only if
some event in the batch carries that numeric index with a sensor label and
the index was not already registered — so an event with a non-sensor label
(e.g. `"User"`) never causes an insertion, whatever its number. -/
theorem C5_classification (raw m : List (Nat × ZoneInfo)) (events : List Event)
    (idx : Nat) (info : ZoneInfo) :
    (dGet? (filter_sensor_zones raw) idx = some info →
      SENSOR_ZONE_TYPES.contains (info.zone_type.getD "") = true) ∧
    (dHas (discover_new_zones_list m events) idx = true →
      ∃ e, e ∈ events ∧ eventZoneIdx e = some idx ∧
        SENSOR_ZONE_TYPES.contains (e.user_zone_type.getD "") = true ∧
        dHas m idx = false) := by
  constructor
  · intro h
    unfold dGet? at h
    cases hf : List.find? (fun p => p.1 == idx) (filter_sensor_zones raw) with
    | none => rw [hf] at h; cases h
    | some pr =>
      rw [hf] at h
      simp only [Option.map_some'] at h
      have hmem : pr ∈ filter_sensor_zones raw := List.mem_of_find?_eq_some hf
      have hmem2 : pr ∈ raw.filter
          (fun p => SENSOR_ZONE_TYPES.contains (p.2.zone_type.getD "")) := hmem
      have hpred := List.of_mem_filter hmem2
      have he2 : pr.2 = info := Option.some.inj h
      rw [← he2]
      exact hpred
  · intro h
    rcases discover_foldl_dHas_sub m events [] idx h with h1 | ⟨e, he, h2, h3, h4, h5⟩
    · simp [dHas_nil] at h1
    · exact ⟨e, he, h2, h5, h4⟩

/-- C6 (counterexample).  The claim says an authentication failure surfaces
as an outcome distinct from the recoverable outcome used for transient
API/connection errors.  But both `except` clauses of `_async_update_data`
raise the same exception class, `UpdateFailed` — only the message prefix
differs — so at the concrete inputs below the raised class is identical. -/
theorem C6_counterexample :
    raisedClass (update_data st0 clientAuthX).2 =
      raisedClass (update_data st0 clientApiX).2 ∧
    (update_data st0 clientAuthX).2 =
      .error ⟨"UpdateFailed", "Authentication error: x"⟩ ∧
    (update_data st0 clientApiX).2 =
      .error ⟨"UpdateFailed", "API error: x"⟩ := by
  refine ⟨?_, ?_, ?_⟩ <;> rfl

/-- C6 (amended).  When the device-list fetch raises `AlulaAuthError`, the
cycle aborts immediately: the whole coordinator state (registry, flags,
counter) is unchanged and no snapshot is produced, and the raised outcome is
`UpdateFailed` with message `"Authentication error: <msg>"` — the same
exception class as a transient error, distinguishable only by message
text. -/
theorem C6_auth_failure_outcome (st : CoordState) (c : Client) (msg : String)
    (h : c.devices = .error (.auth msg)) :
    update_data st c =
      (st, .error ⟨"UpdateFailed", "Authentication error: " ++ msg⟩) ∧
    raisedClass (update_data st c).2 = some "UpdateFailed" := by
  have h1 := update_data_auth st c msg h
  exact ⟨h1, by rw [h1]; rfl⟩

/-- C6 (witness): the theorem applied to a concrete auth-failing client. -/
theorem C6_witness :
    update_data st0 clientAuthX =
      (st0, .error ⟨"UpdateFailed", "Authentication error: " ++ "x"⟩) ∧
    raisedClass (update_data st0 clientAuthX).2 = some "UpdateFailed" :=
  C6_auth_failure_outcome st0 clientAuthX "x" rfl

/-- C7 (counterexample).  The claim says a subscription-creation failure in
the first-cycle initialization pass is swallowed and the cycle completes.
In `_async_initialize_zones` the `async_ensure_zone_subscriptions` call is
NOT inside a try block (only `async_renew_notifications` is), so the api
error propagates and the cycle aborts with `UpdateFailed` — though the
discovered zone does remain in the registry. -/
theorem C7_counterexample :
    (update_data st0 clientInitSubFail).2 =
      .error ⟨"UpdateFailed", "API error: sub fail"⟩ ∧
    dHas (getPanel (update_data st0 clientInitSubFail).1.zone_metadata "A") 1 = true := by
  refine ⟨?_, ?_⟩ <;> rfl

/-- C7 (amended).  In the per-poll discovery step a subscription-creation
failure that is not an auth error is swallowed: the panel's poll step still
returns its reconstructed zone map and every discovered zone is merged into
the registry.  In the initialization pass, by contrast, a subscription
failure aborts the panel's initialization with the error (the cycle fails),
although the filtered zones have already been stored in the registry. -/
theorem C7_subscription_failure (c : Client) (lim : Nat) (reg : Registry)
    (pid : String) (events : List Event) (err : AlulaErr)
    (raw : List (Nat × ZoneInfo))
    (h1 : c.event_log pid lim = .ok events)
    (h2 : isAuthErr (c.ensure_subs_poll pid
      (dKeys (discover_new_zones_list (getPanel reg pid) events))) = false)
    (h3 : c.discover_zones pid = .ok raw)
    (h4 : filter_sensor_zones raw ≠ [])
    (h5 : c.ensure_subs_init pid (dKeys (filter_sensor_zones raw)) = .error err) :
    (poll_zone_states_panel c lim reg pid).2 =
      .ok (build_zone_states pid
        (getPanel (poll_zone_states_panel c lim reg pid).1 pid) events) ∧
    (∀ idx, dHas (discover_new_zones_list (getPanel reg pid) events) idx = true →
      dHas (getPanel (poll_zone_states_panel c lim reg pid).1 pid) idx = true) ∧
    initialize_zones_panel c reg pid =
      (dSet reg pid (filter_sensor_zones raw), .error err) := by
  have hok := poll_panel_ok c lim reg pid events h1 h2
  refine ⟨?_, ?_, initialize_panel_subfail c reg pid raw err h3 h4 h5⟩
  · rw [hok]
  · intro idx hidx
    rw [hok]
    show dHas (getPanel
      (discover_new_zones (setdefaultPanel reg pid) pid events).2 pid) idx = true
    rw [discover_getPanel_self, getPanel_setdefault, dHas_dUpd, hidx]
    simp

/-- C7 (witness): the theorem applied to a client whose two subscription
call sites fail with api errors while event log and deep scan succeed. -/
theorem C7_witness :
    (poll_zone_states_panel clientC7 100 [] "A").2 =
      .ok (build_zone_states "A"
        (getPanel (poll_zone_states_panel clientC7 100 [] "A").1 "A") [exEv5]) ∧
    (∀ idx, dHas (discover_new_zones_list (getPanel [] "A") [exEv5]) idx = true →
      dHas (getPanel (poll_zone_states_panel clientC7 100 [] "A").1 "A") idx = true) ∧
    initialize_zones_panel clientC7 [] "A" =
      (dSet [] "A" (filter_sensor_zones [(1, ⟨some "Front", some "Zone"⟩)]),
       .error (.api "s2")) :=
  C7_subscription_failure clientC7 100 [] "A" [exEv5] (.api "s2")
    [(1, ⟨some "Front", some "Zone"⟩)] rfl rfl rfl (by decide) rfl

/-- C8.  Discovery idempotence: running `_discover_new_zones` a second time
with the same panel and the same event batch returns no newly-inserted
zones and leaves the registry exactly as the first call left it; the first
call's returned dict has no duplicate keys (each index inserted at most
once) and is disjoint from the indices already registered for the panel. -/
theorem C8_discovery_idempotent (reg : Registry) (pid : String) (events : List Event) :
    (discover_new_zones (discover_new_zones reg pid events).2 pid events).1 = [] ∧
    (discover_new_zones (discover_new_zones reg pid events).2 pid events).2 =
      (discover_new_zones reg pid events).2 ∧
    (dKeys (discover_new_zones reg pid events).1).Nodup ∧
    (∀ idx, dHas (discover_new_zones reg pid events).1 idx = true →
      dHas (getPanel reg pid) idx = false) := by
  have hsd : setdefaultPanel (discover_new_zones reg pid events).2 pid =
      (discover_new_zones reg pid events).2 :=
    setdefaultPanel_of_has _ pid (discover_dHas_reg reg pid events)
  have hempty : discover_new_zones_list
      (getPanel (discover_new_zones reg pid events).2 pid) events = [] := by
    rw [discover_getPanel_self]
    apply discover_foldl_all_known
    intro e he idx hidx h0 hsens
    rw [dHas_dUpd]
    cases hm : dHas (getPanel reg pid) idx with
    | true => simp
    | false =>
      have hc := discover_foldl_complete (getPanel reg pid) events [] e idx
        he hidx h0 hm hsens
      rw [show dHas (discover_new_zones_list (getPanel reg pid) events) idx = true
        from hc]
      simp
  have h2nd : discover_new_zones (discover_new_zones reg pid events).2 pid events =
      ([], (discover_new_zones reg pid events).2) := by
    set D := discover_new_zones reg pid events with hD
    simp only [discover_new_zones]
    rw [hsd, hempty]
    simp
  refine ⟨by rw [h2nd], by rw [h2nd], ?_, ?_⟩
  · rw [discover_fst]
    exact foldl_keysNodup (discoverStep_appendStep _) events [] (by simp [dKeys])
  · intro idx h
    rw [discover_fst] at h
    rcases discover_foldl_dHas_sub (getPanel reg pid) events [] idx h with
      h1 | ⟨e, he, h2, h3, h4, h5⟩
    · simp [dHas_nil] at h1
    · exact h4

/-- C9.  Partial-cycle retention: with two panels, when panel 1's step
completes (its discovery merge included) and panel 2's event-log fetch then
fails with an api error, the poll aborts with exactly that error, yet every
zone index panel 1's discovery merged is present in the registry the failed
poll leaves behind; and a later steady-state cycle never removes a registry
key, so the merged indices stay visible to all subsequent cycles. -/
theorem C9_partial_cycle_retention (c : Client) (lim : Nat) (reg : Registry)
    (p1 p2 : String) (events : List Event) (msg : String)
    (h1 : c.event_log p1 lim = .ok events)
    (h2 : c.event_log p2 lim = .error (.api msg))
    (h3 : isAuthErr (c.ensure_subs_poll p1
      (dKeys (discover_new_zones_list (getPanel reg p1) events))) = false) :
    (poll_zone_states c lim reg [p1, p2]).2 = .error (.api msg) ∧
    (∀ idx, dHas (discover_new_zones_list (getPanel reg p1) events) idx = true →
      dHas (getPanel (poll_zone_states c lim reg [p1, p2]).1 p1) idx = true) ∧
    (∀ st c' pid idx, st.zones_initialized = true →
      dHas (getPanel st.zone_metadata pid) idx = true →
      dHas (getPanel (update_data st c').1.zone_metadata pid) idx = true) := by
  have hok := poll_panel_ok c lim reg p1 events h1 h3
  have herr := poll_panel_err c lim
    (discover_new_zones (setdefaultPanel reg p1) p1 events).2 p2 (.api msg) h2
  have hfull : poll_zone_states c lim reg [p1, p2] =
      (setdefaultPanel (discover_new_zones (setdefaultPanel reg p1) p1 events).2 p2,
       .error (.api msg)) := by
    simp only [poll_zone_states, hok, herr]
  refine ⟨by rw [hfull], ?_, ?_⟩
  · intro idx hidx
    rw [hfull]
    show dHas (getPanel (setdefaultPanel
      (discover_new_zones (setdefaultPanel reg p1) p1 events).2 p2) p1) idx = true
    rw [getPanel_setdefault, discover_getPanel_self, getPanel_setdefault,
      dHas_dUpd, hidx]
    simp
  · intro st c' pid idx ha hb
    exact (update_data_steady st c' ha).2 pid idx hb

/-- C9 (witness): the theorem applied to a concrete two-panel client where
panel B's event-log fetch fails. -/
theorem C9_witness :
    (poll_zone_states clientC9 100 [] ["A", "B"]).2 = .error (.api "down") ∧
    (∀ idx, dHas (discover_new_zones_list (getPanel [] "A") [exEv5]) idx = true →
      dHas (getPanel (poll_zone_states clientC9 100 [] ["A", "B"]).1 "A") idx = true) ∧
    (∀ st c' pid idx, st.zones_initialized = true →
      dHas (getPanel st.zone_metadata pid) idx = true →
      dHas (getPanel (update_data st c').1.zone_metadata pid) idx = true) :=
  C9_partial_cycle_retention clientC9 100 [] "A" "B" [exEv5] "down" rfl rfl rfl

/-- C10 (implicit).  State reconstruction matches events to registered zones
by the parsed numeric field alone and never re-checks the zone-type label:
an event whose label is `"User"` but whose numeric field equals a registered
nonzero zone index still determines that zone's open/closed state when it is
the newest such event in the batch. -/
theorem C10_match_by_index_only (pid : String) (m : List (Nat × ZoneInfo))
    (pre post : List Event) (e : Event) (idx : Nat)
    (h1 : eventZoneIdx e = some idx) (h2 : (idx == 0) = false)
    (h3 : dHas m idx = true) (h4 : e.user_zone_type = some "User")
    (h5 : ∀ e' ∈ pre, eventZoneIdx e' ≠ some idx) :
    (dGet? (build_zone_states pid m (pre ++ e :: post)) idx).map Zone.is_active =
      some (e.event_qualifier == "1") := by
  rw [build_first_hit pid m pre post e idx h1 h2 h3 h5]
  rfl

/-- C10 (witness): a "User"-typed qualifier-"1" event numbered 3 drives
registered zone 3 open. -/
theorem C10_witness :
    (dGet? (build_zone_states "p" exReg3 ([] ++ exEv3User "1" :: [])) 3).map
      Zone.is_active = some ((exEv3User "1").event_qualifier == "1") :=
  C10_match_by_index_only "p" exReg3 [] [] (exEv3User "1") 3 rfl rfl (by decide)
    rfl (by simp)
